import Mathlib

/-!
Verification development for two Python batch utilities:
`cwebp-converter/main.py` (batch image-to-WebP conversion) and
`img-downloader/downloader.py` (batch image download).

Both scripts map a per-item worker over an input list with
`ThreadPoolExecutor.map`, count completions in a `for` loop over the map
results, print a progress line per completion and a final summary line,
and append one line per caught per-item failure to an error-log file.

The embedding below models:
  * the filesystem state the scripts touch (directories, and files as
    lists of appended chunks),
  * Python exceptions that the scripts raise or catch (`PyExn`),
  * the external collaborators (the `cwebp` subprocess and the HTTP
    library) as per-item environments (`CwebpResult`, `HttpResult`),
  * `ThreadPoolExecutor.map` + the enclosing `with` block as
    `executorMap`: every submitted call runs to completion (the `with`
    block joins all threads), and results are consumed in input order,
  * the counting `for` loop as `consumeLoop`: it increments the counter
    per yielded result and re-raises the first exception a worker raised.

Stateful code is explicit state passing: a worker maps a filesystem to a
new filesystem together with an optional uncaught exception.
-/

/-- Python exceptions relevant to the two scripts.  `calledProcess` is
`subprocess.CalledProcessError` (caught by the converter), `requestExn`
is `requests.exceptions.RequestException` (caught by the downloader);
the remaining constructors are `OSError` subclasses and `ValueError`,
which neither script catches. -/
inductive PyExn where
  | calledProcess (code : Nat)
  | requestExn (msg : String)
  | fileExists (path : String)
  | isADirectory (path : String)
  | valueError (msg : String)
  | osError (msg : String)
deriving DecidableEq, Repr

/-- Association-list lookup for the file store (first match wins). -/
def assocGet : List (String × List String) → String → Option (List String)
  | [], _ => none
  | (k', v) :: rest, k => if k' = k then some v else assocGet rest k

/-- Association-list update: replace the first binding of `k`, or add one. -/
def assocSet : List (String × List String) → String → List String → List (String × List String)
  | [], k, v => [(k, v)]
  | (k', v') :: rest, k, v =>
      if k' = k then (k, v) :: rest else (k', v') :: assocSet rest k v

/-- The filesystem state the scripts touch: a set of existing directories
and a store of files, each file being the list of chunks written to it
(each error-log append is one chunk, which is one line). -/
structure FS where
  dirs : List String
  files : List (String × List String)
deriving DecidableEq, Repr

/-- `os.path.exists`: true for a directory or a file of that name. -/
def FS.existsPath (fs : FS) (p : String) : Bool :=
  fs.dirs.contains p || (assocGet fs.files p).isSome

/-- `os.makedirs` when it succeeds: the directory now exists. -/
def FS.mkdir (fs : FS) (p : String) : FS :=
  { fs with dirs := p :: fs.dirs }

/-- `open(p, "a")` followed by one `write(line)`: appends to the file,
creating it when absent (that is what append mode does). -/
def FS.appendChunk (fs : FS) (p line : String) : FS :=
  match assocGet fs.files p with
  | some cs => { fs with files := assocSet fs.files p (cs ++ [line]) }
  | none => { fs with files := assocSet fs.files p [line] }

/-- `open(p, "wb")` followed by writing the whole body: truncate/create. -/
def FS.writeAll (fs : FS) (p content : String) : FS :=
  { fs with files := assocSet fs.files p [content] }

/-- The current content of a file, `none` when the file does not exist. -/
def FS.readFile (fs : FS) (p : String) : Option (List String) :=
  assocGet fs.files p

/-- `os.path.join a b` for the cases the scripts hit: `b` absolute wins;
otherwise concatenate with exactly one separator. -/
def os_path_join (a b : String) : String :=
  if b.data.head? = some '/' then b
  else if a = "" then b
  else if a.data.getLast? = some '/' then a ++ b
  else a ++ "/" ++ b

/-- `os.path.basename p`: the part after the last slash. -/
def os_path_basename (p : String) : String :=
  String.mk ((p.data.reverse.takeWhile (fun c => c ≠ '/')).reverse)

/-- The root part of `os.path.splitext` on a basename: split at the last
dot that has some non-dot character before it; otherwise no extension. -/
def splitextRoot (base : String) : String :=
  let cs := base.data
  let good := (List.range cs.length).filter
    (fun i => cs.getD i ' ' = '.' && (List.range i).any (fun j => cs.getD j ' ' ≠ '.'))
  match good.getLast? with
  | some i => String.mk (cs.take i)
  | none => base

/-- Scan a character list for the `://` scheme separator and return what
follows it, or `none` when there is no separator. -/
def afterSchemeSep : List Char → Option (List Char)
  | ':' :: '/' :: '/' :: rest => some rest
  | _ :: rest => afterSchemeSep rest
  | [] => none

/-- Modelled library call: `urllib.parse.urlparse(url).path` for the URL
shapes the downloader receives.  The fragment (after `#`) and the query
(after `?`) are cut off; with a `scheme://netloc` prefix the path is what
starts at the first slash after the netloc (empty when there is none);
without one the whole remainder is the path. -/
def urlparsePath (url : String) : String :=
  let noFrag := url.data.takeWhile (fun c => c ≠ '#')
  let noQuery := noFrag.takeWhile (fun c => c ≠ '?')
  match afterSchemeSep noQuery with
  | none => String.mk noQuery
  | some rest => String.mk (rest.dropWhile (fun c => c ≠ '/'))

/-- Outcome of the external `subprocess.run(["cwebp", ...], check=True)`
call: the process ran and exited with `code`, or the call itself raised
(for example `FileNotFoundError` when `cwebp` is not installed). -/
inductive CwebpResult where
  | exit (code : Nat)
  | fault (msg : String)
deriving DecidableEq, Repr

/-- Per-item environment of the conversion worker: whether the output
folder comes to exist between the `os.path.exists` check and the
`os.makedirs` call (another thread creating it), and what the `cwebp`
subprocess does for this item. -/
structure ConvEnv where
  raceCreate : Bool
  cwebp : CwebpResult
deriving DecidableEq, Repr

/-- The message of `str(subprocess.CalledProcessError)` for a non-zero
exit (the Python text also repeats the command line; the exit status is
what varies). -/
def cpeStr (code : Nat) : String :=
  "Command cwebp returned non-zero exit status " ++ toString code ++ "."

/-- The error-log line the converter writes for one failed item:
`f"Error converting {image_path}: {e}\n"`. -/
def convLogLine (image_path : String) (code : Nat) : String :=
  "Error converting " ++ image_path ++ ": " ++ cpeStr code ++ "\n"

/-- The output path the converter builds for one image:
`os.path.join(output_folder, f"{filename}.webp")`. -/
def convOutPath (output_folder image_path : String) : String :=
  os_path_join output_folder (splitextRoot (os_path_basename image_path) ++ ".webp")

/-- `convert_to_webp(image_path, output_folder, error_log)` from
`cwebp-converter/main.py` lines 6-39.  Inside a `try` it creates the
output folder when `os.path.exists` says it is absent (`os.makedirs`
raises `FileExistsError` when the folder appeared in between), builds the
output path, and runs `cwebp` with `check=True`.  The `except` clause
catches only `subprocess.CalledProcessError` and appends one line to the
error log; any other exception propagates out. -/
def convert_to_webp (env : ConvEnv) (image_path output_folder error_log : String)
    (fs : FS) : FS × Option PyExn :=
  let dirStep : FS × Option PyExn :=
    if fs.existsPath output_folder then (fs, none)
    else
      let fs1 := if env.raceCreate then fs.mkdir output_folder else fs
      if fs1.existsPath output_folder then (fs1, some (.fileExists output_folder))
      else (fs1.mkdir output_folder, none)
  match dirStep with
  | (fs1, some e) => (fs1, some e)
  | (fs1, none) =>
      let output_path := convOutPath output_folder image_path
      match env.cwebp with
      | .exit code =>
          if code = 0 then
            (fs1.writeAll output_path ("WEBP:" ++ image_path), none)
          else
            (fs1.appendChunk error_log (convLogLine image_path code), none)
      | .fault msg => (fs1, some (.osError msg))

/-- Outcome of `requests.get(url, stream=True)` + `raise_for_status()`:
a 2xx response whose body is `content`, or a `RequestException`
(connection error, invalid URL, or non-2xx status). -/
inductive HttpResult where
  | ok (content : String)
  | exn (msg : String)
deriving DecidableEq, Repr

/-- The error-log line the downloader writes for one failed item:
`f"Error downloading {url}: {e}\n"`. -/
def dlLogLine (url msg : String) : String :=
  "Error downloading " ++ url ++ ": " ++ msg ++ "\n"

/-- The destination path the downloader builds for one URL. -/
def dlFilePath (folder_name url : String) : String :=
  os_path_join folder_name (os_path_basename (urlparsePath url))

/-- `download_image(url, folder_name, error_log)` from
`img-downloader/downloader.py` lines 9-37.  Inside a `try` it derives the
filename from the URL path, performs the GET, and writes the body to
`os.path.join(folder_name, filename)` opened in `'wb'` mode.  The
`except` clause catches only `RequestException` and appends one line to
the error log; exceptions from `open`/`write` propagate out.  The model
of `open(filepath, 'wb')`: a path that ends in a slash, is empty, or
names an existing directory raises an `OSError` (`IsADirectoryError` /
`FileNotFoundError`); otherwise the write succeeds (the enclosing batch
has created the folder). -/
def download_image (env : HttpResult) (url folder_name error_log : String)
    (fs : FS) : FS × Option PyExn :=
  match env with
  | .exn msg =>
      (fs.appendChunk error_log (dlLogLine url msg), none)
  | .ok content =>
      let filepath := dlFilePath folder_name url
      if filepath.data.getLast? = some '/' ∨ filepath = "" ∨ fs.dirs.contains filepath = true then
        (fs, some (.isADirectory filepath))
      else
        (fs.writeAll filepath content, none)

/-- `ThreadPoolExecutor.map(worker, items, ...)` together with the
enclosing `with` block: every call is submitted, every submitted call
runs to completion (the `with` block joins all threads before the
function can raise out of it), and the results iterator yields per-call
outcomes in input order.  This is the sequential linearization of the
pool: the filesystem effects of all workers are applied in input order,
and each worker's outcome (`none` = returned, `some e` = raised `e`) is
recorded. -/
def executorMap (worker : String → FS → FS × Option PyExn) :
    List String → FS → FS × List (Option PyExn)
  | [], fs => (fs, [])
  | it :: rest, fs =>
      let step := worker it fs
      let tail := executorMap worker rest step.1
      (tail.1, step.2 :: tail.2)

/-- The counting `for` loop over the map results (`for _ in executor.map(...)`):
starting from counter value `n`, each yielded `none` increments the
counter and records its new value (one progress print); the first
`some e` re-raises `e` out of the loop, ending consumption.  Returns the
final counter, the list of successive counter values printed, and the
re-raised exception when there is one. -/
def consumeLoop : List (Option PyExn) → Nat → Nat × List Nat × Option PyExn
  | [], n => (n, [], none)
  | none :: rest, n =>
      let tail := consumeLoop rest (n + 1)
      (tail.1, (n + 1) :: tail.2.1, tail.2.2)
  | some e :: _, n => (n, [], some e)

/-- Observable outcome of one batch-function call: the filesystem after
the run, the final counter value, the successive counter values at each
progress print, everything printed (progress lines then summary), and
the exception that propagated out of the function, when one did. -/
structure RunOut where
  fs : FS
  counter : Nat
  trace : List Nat
  prints : List String
  exn : Option PyExn
deriving DecidableEq, Repr

/-- The converter's progress line
`f"Converted {converted_images} of {total_images} images..."`. -/
def progressConv (n t : Nat) : String :=
  "Converted " ++ toString n ++ " of " ++ toString t ++ " images..."

/-- The converter's final summary
`f"Converted {n} of {t} images. " + f"Errors logged to {error_log}."`
(both parts are f-strings: the error-log path is substituted). -/
def summaryConv (n t : Nat) (error_log : String) : String :=
  ("Converted " ++ toString n ++ " of " ++ toString t ++ " images. ")
    ++ ("Errors logged to " ++ error_log ++ ".")

/-- The downloader's progress line
`f"Completed {downloaded_images} of {total_images} images..."`. -/
def progressDl (n t : Nat) : String :=
  "Completed " ++ toString n ++ " of " ++ toString t ++ " images..."

/-- The downloader's final summary
`f"Completed {n} of {t} images. " + "Errors logged to {error_log}."`:
the second part is NOT an f-string in the source, so the braces are
printed literally and the `error_log` argument is ignored. -/
def summaryDl (n t : Nat) (error_log : String) : String :=
  ("Completed " ++ toString n ++ " of " ++ toString t ++ " images. ")
    ++ "Errors logged to \x7berror_log\x7d."

/-- One entry of `os.listdir(image_folder)`: the entry's name and the
result of `os.path.isfile(os.path.join(image_folder, name))`.
`os.listdir` returns the direct (non-recursive) entries of the folder. -/
structure DirEntry where
  name : String
  isfile : Bool
deriving DecidableEq, Repr

/-- Python `f.lower()` for the ASCII file names the filter compares. -/
def pyLower (s : String) : String :=
  String.mk (s.data.map Char.toLower)

/-- `s.endswith(suffix)`. -/
def strEndsWith (s suffix : String) : Bool :=
  suffix.data.reverse.isPrefixOf s.data.reverse

/-- The converter's selection test
`f.lower().endswith(('.png', '.jpg', '.jpeg', '.gif'))`. -/
def hasImageExt (f : String) : Bool :=
  strEndsWith (pyLower f) ".png" || strEndsWith (pyLower f) ".jpg"
    || strEndsWith (pyLower f) ".jpeg" || strEndsWith (pyLower f) ".gif"

/-- The converter's input scan (`main.py` lines 56-61): the list
comprehension over `os.listdir(image_folder)` keeping entries that are
files with an image extension, joined onto the folder. -/
def imagePaths (image_folder : String) (listing : List DirEntry) : List String :=
  (listing.filter (fun e => e.isfile && hasImageExt e.name)).map
    (fun e => os_path_join image_folder e.name)

/-- `convert_images_to_webp(image_folder, output_folder, max_threads,
error_log)` from `cwebp-converter/main.py` lines 41-83.  It scans the
folder, builds `ThreadPoolExecutor(max_workers=max_threads)` — which
raises `ValueError("max_workers must be greater than 0")` when
`max_threads <= 0`, before any worker is invoked — maps `convert_to_webp`
over the image paths, counts each yielded result and prints a progress
line, and prints the final summary after the loop.  `env` gives each
image path its external-world outcome; `listing` is what `os.listdir`
returned. -/
def convert_images_to_webp (env : String → ConvEnv) (image_folder : String)
    (listing : List DirEntry) (output_folder : String) (max_threads : Int)
    (error_log : String) (fs : FS) : RunOut :=
  let image_paths := imagePaths image_folder listing
  let total_images := image_paths.length
  if max_threads ≤ 0 then
    ⟨fs, 0, [], [], some (.valueError "max_workers must be greater than 0")⟩
  else
    let step := executorMap
      (fun p fsx => convert_to_webp (env p) p output_folder error_log fsx)
      image_paths fs
    let res := consumeLoop step.2 0
    match res.2.2 with
    | some e =>
        ⟨step.1, res.1, res.2.1,
          res.2.1.map (fun k => progressConv k total_images), some e⟩
    | none =>
        ⟨step.1, res.1, res.2.1,
          res.2.1.map (fun k => progressConv k total_images)
            ++ [summaryConv res.1 total_images error_log], none⟩

/-- The downloader's batch-level folder creation (`downloader.py` lines
56-58): `if not os.path.exists(folder_name): os.makedirs(folder_name)`.
This runs on the main thread before the pool exists, so the
check-then-create pair cannot race here. -/
def dlFs0 (fs : FS) (folder_name : String) : FS :=
  if fs.existsPath folder_name then fs else fs.mkdir folder_name

/-- `download_images(image_urls, folder_name, max_threads, error_log)`
from `img-downloader/downloader.py` lines 39-80.  It creates the folder
when absent (before the pool: single-threaded, so no creation race
here), builds the executor — same `ValueError` on `max_threads <= 0` —
maps `download_image` over the URLs, counts and prints progress, and
prints the final summary.  `env` gives each URL its HTTP outcome. -/
def download_images (env : String → HttpResult) (image_urls : List String)
    (folder_name : String) (max_threads : Int) (error_log : String)
    (fs : FS) : RunOut :=
  let fs0 := dlFs0 fs folder_name
  let total_images := image_urls.length
  if max_threads ≤ 0 then
    ⟨fs0, 0, [], [], some (.valueError "max_workers must be greater than 0")⟩
  else
    let step := executorMap
      (fun u fsx => download_image (env u) u folder_name error_log fsx)
      image_urls fs0
    let res := consumeLoop step.2 0
    match res.2.2 with
    | some e =>
        ⟨step.1, res.1, res.2.1,
          res.2.1.map (fun k => progressDl k total_images), some e⟩
    | none =>
        ⟨step.1, res.1, res.2.1,
          res.2.1.map (fun k => progressDl k total_images)
            ++ [summaryDl res.1 total_images error_log], none⟩

/-- Python whitespace as `str.strip` sees it. -/
def isPySpace (c : Char) : Bool :=
  c = ' ' || c = '\t' || c = '\n' || c = '\r' || c = '\x0b' || c = '\x0c'

/-- `line.strip()`: remove leading and trailing whitespace. -/
def pyStrip (s : String) : String :=
  String.mk (((s.data.dropWhile isPySpace).reverse.dropWhile isPySpace).reverse)

/-- `line.rstrip()`: remove trailing whitespace only (what the spec's
words describe). -/
def pyRstrip (s : String) : String :=
  String.mk ((s.data.reverse.dropWhile isPySpace).reverse)

/-- Split a character list at newline characters; the result always has
one piece more than there are newlines. -/
def splitOnNl : List Char → List (List Char)
  | [] => [[]]
  | c :: rest =>
      if c = '\n' then [] :: splitOnNl rest
      else
        match splitOnNl rest with
        | [] => [[c]]
        | l :: ls => (c :: l) :: ls

/-- Iterating an open text file (`for line in f`) yields one element per
line of the content.  Here each element is the line without its `'\n'`
terminator (Python keeps it, but every use below strips it away with the
rest of the trailing whitespace): split at newlines and drop the final
empty piece a terminating newline produces.  `""` has no lines. -/
def pyLines (content : String) : List String :=
  let parts := (splitOnNl content.data).map String.mk
  if parts.getLast? = some "" then parts.dropLast else parts

/-- The downloader's URL reading (`downloader.py` lines 106-107):
`image_urls = [line.strip() for line in f]`. -/
def readUrls (content : String) : List String :=
  (pyLines content).map pyStrip

/-- What the spec's words describe instead: one element per line with
only the trailing whitespace stripped.  Stated for comparison with
`readUrls`, which is what the source computes. -/
def readUrlsSpec (content : String) : List String :=
  (pyLines content).map pyRstrip

/-- Appending one line to a file that holds `cur`: append mode creates
the file when absent. -/
def pushLine (cur : Option (List String)) (line : String) : List String :=
  match cur with
  | some cs => cs ++ [line]
  | none => [line]

/-- Appending a list of lines to a file that holds `cur`: the file stays
absent when there is nothing to append, and is created on the first
append otherwise. -/
def appendLines (cur : Option (List String)) (ls : List String) : Option (List String) :=
  if ls = [] then cur
  else
    match cur with
    | none => some ls
    | some cs => some (cs ++ ls)

/-- Whether the conversion environment makes item `p` a caught failure:
`cwebp` ran and exited non-zero. -/
def convFails (env : String → ConvEnv) (p : String) : Bool :=
  match (env p).cwebp with
  | .exit c => decide (c ≠ 0)
  | .fault _ => false

/-- The exit code recorded for an item (0 when the call did not exit). -/
def codeOf : CwebpResult → Nat
  | .exit c => c
  | .fault _ => 0

/-- The error-log lines a converter batch appends: one line per failing
item, in input order. -/
def convFailLines (env : String → ConvEnv) (items : List String) : List String :=
  (items.filter (convFails env)).map (fun p => convLogLine p (codeOf (env p).cwebp))

/-- Whether the HTTP environment makes URL `u` a caught failure:
the GET (or `raise_for_status`) raised a `RequestException`. -/
def dlFails (env : String → HttpResult) (u : String) : Bool :=
  match env u with
  | .ok _ => false
  | .exn _ => true

/-- The diagnostic recorded for a URL (empty on success). -/
def msgOf : HttpResult → String
  | .ok _ => ""
  | .exn m => m

/-- The error-log lines a downloader batch appends: one line per failing
URL, in input order. -/
def dlFailLines (env : String → HttpResult) (urls : List String) : List String :=
  (urls.filter (dlFails env)).map (fun u => dlLogLine u (msgOf (env u)))

/-- A conversion environment with no unexpected fault for the given item:
no creation race, and `cwebp` ran to an exit status. -/
def convExpected (env : String → ConvEnv) (p : String) : Prop :=
  (env p).raceCreate = false ∧ ∃ c, (env p).cwebp = CwebpResult.exit c

/-- A download environment with no unexpected fault for the given URL
against directory set `dirs`: either the GET raised (caught), or it
succeeded and the destination path is writable (non-empty, not
slash-terminated, not an existing directory) and distinct from the
error log. -/
def dlExpected (env : String → HttpResult) (folder log : String)
    (dirs : List String) (u : String) : Prop :=
  match env u with
  | .exn _ => True
  | .ok _ =>
      (dlFilePath folder u).data.getLast? ≠ some '/'
      ∧ dlFilePath folder u ≠ ""
      ∧ dirs.contains (dlFilePath folder u) = false
      ∧ dlFilePath folder u ≠ log

/-- Concrete fixtures for witnesses and counterexamples. -/
def fsEmpty : FS := ⟨[], []⟩

def listing5 : List DirEntry :=
  [⟨"a.png", true⟩, ⟨"b.png", true⟩, ⟨"c.png", true⟩, ⟨"d.png", true⟩, ⟨"e.png", true⟩]

def envCok : String → ConvEnv := fun _ => ⟨false, .exit 0⟩

def envCfail : String → ConvEnv := fun _ => ⟨false, .exit 1⟩

def envDok : String → HttpResult := fun _ => .ok "DATA"

def envDfail : String → HttpResult := fun _ => .exn "404 Client Error"

theorem assocGet_assocSet_self (l : List (String × List String)) (k : String)
    (v : List String) : assocGet (assocSet l k v) k = some v := by
  induction l with
  | nil => simp [assocSet, assocGet]
  | cons hd tl ih =>
      obtain ⟨k', v'⟩ := hd
      by_cases h : k' = k
      · simp [assocSet, h, assocGet]
      · simp [assocSet, h, assocGet, ih]

theorem assocGet_assocSet_ne (l : List (String × List String)) (k k' : String)
    (v : List String) (h : k' ≠ k) :
    assocGet (assocSet l k v) k' = assocGet l k' := by
  induction l with
  | nil => simp [assocSet, assocGet, h, Ne.symm h]
  | cons hd tl ih =>
      obtain ⟨ka, va⟩ := hd
      by_cases hk : ka = k
      · subst hk
        simp [assocSet, assocGet, h, Ne.symm h]
      · simp [assocSet, hk, assocGet, ih]

theorem readFile_appendChunk_self (fs : FS) (p line : String) :
    (fs.appendChunk p line).readFile p = some (pushLine (fs.readFile p) line) := by
  unfold FS.appendChunk FS.readFile pushLine
  cases h : assocGet fs.files p <;> simp [h, assocGet_assocSet_self]

theorem readFile_appendChunk_ne (fs : FS) (p q line : String) (h : q ≠ p) :
    (fs.appendChunk p line).readFile q = fs.readFile q := by
  unfold FS.appendChunk FS.readFile
  cases hx : assocGet fs.files p <;> simp [assocGet_assocSet_ne _ _ _ _ h]

theorem readFile_writeAll_ne (fs : FS) (p q content : String) (h : q ≠ p) :
    (fs.writeAll p content).readFile q = fs.readFile q := by
  unfold FS.writeAll FS.readFile
  simp [assocGet_assocSet_ne _ _ _ _ h]

theorem readFile_mkdir (fs : FS) (d q : String) :
    (fs.mkdir d).readFile q = fs.readFile q := rfl

theorem dirs_appendChunk (fs : FS) (p line : String) :
    (fs.appendChunk p line).dirs = fs.dirs := by
  unfold FS.appendChunk
  cases h : assocGet fs.files p <;> simp

theorem dirs_writeAll (fs : FS) (p content : String) :
    (fs.writeAll p content).dirs = fs.dirs := rfl

theorem appendLines_nil (cur : Option (List String)) : appendLines cur [] = cur := rfl

theorem appendLines_push (cur : Option (List String)) (l : String) (ls : List String) :
    appendLines (some (pushLine cur l)) ls = appendLines cur (l :: ls) := by
  cases cur <;> cases ls <;> simp [appendLines, pushLine]
theorem convert_to_webp_expected (env : ConvEnv) (p folder log : String) (fs : FS)
    (hr : env.raceCreate = false) (c : Nat) (hc : env.cwebp = .exit c)
    (hout : convOutPath folder p ≠ log) :
    (convert_to_webp env p folder log fs).2 = none
    ∧ (convert_to_webp env p folder log fs).1.readFile log
        = (if c = 0 then fs.readFile log
           else some (pushLine (fs.readFile log) (convLogLine p c))) := by
  unfold convert_to_webp
  by_cases hex : fs.existsPath folder = true
  · by_cases h0 : c = 0
    · simp [hex, hc, h0, readFile_writeAll_ne _ _ _ _ (Ne.symm hout)]
    · simp [hex, hc, h0, readFile_appendChunk_self]
  · have hmk : (fs.mkdir folder).existsPath folder = true := by
      simp [FS.mkdir, FS.existsPath]
    by_cases h0 : c = 0
    · simp [hex, hr, hc, h0, readFile_writeAll_ne _ _ _ _ (Ne.symm hout), readFile_mkdir]
    · simp [hex, hr, hc, h0, readFile_appendChunk_self, readFile_mkdir]

theorem download_image_exn_eq (m u folder log : String) (fs : FS) :
    download_image (.exn m) u folder log fs
      = (fs.appendChunk log (dlLogLine u m), none) := rfl

theorem download_image_ok_eq (content u folder log : String) (fs : FS)
    (h1 : (dlFilePath folder u).data.getLast? ≠ some '/')
    (h2 : dlFilePath folder u ≠ "")
    (h3 : fs.dirs.contains (dlFilePath folder u) = false) :
    download_image (.ok content) u folder log fs
      = (fs.writeAll (dlFilePath folder u) content, none) := by
  have hcond : ¬ ((dlFilePath folder u).data.getLast? = some '/'
      ∨ dlFilePath folder u = "" ∨ fs.dirs.contains (dlFilePath folder u) = true) := by
    push_neg
    exact ⟨h1, h2, by simpa using h3⟩
  simp only [download_image]
  rw [if_neg hcond]

theorem download_image_dirs (env : HttpResult) (u folder log : String) (fs : FS) :
    (download_image env u folder log fs).1.dirs = fs.dirs := by
  cases env with
  | exn m => exact dirs_appendChunk fs log (dlLogLine u m)
  | ok content =>
      simp only [download_image]
      by_cases hcond : ((dlFilePath folder u).data.getLast? = some '/'
          ∨ dlFilePath folder u = "" ∨ fs.dirs.contains (dlFilePath folder u) = true)
      · rw [if_pos hcond]
      · rw [if_neg hcond]
        exact dirs_writeAll fs (dlFilePath folder u) content

theorem executorMap_length (w : String → FS → FS × Option PyExn)
    (items : List String) (fs : FS) :
    (executorMap w items fs).2.length = items.length := by
  induction items generalizing fs with
  | nil => rfl
  | cons p rest ih => simp [executorMap, ih]

theorem consumeLoop_all_none (rs : List (Option PyExn)) (n : Nat)
    (h : ∀ r ∈ rs, r = none) :
    consumeLoop rs n = (n + rs.length, List.range' (n + 1) rs.length, none) := by
  induction rs generalizing n with
  | nil => simp [consumeLoop]
  | cons r rest ih =>
      have hr : r = none := h r (by simp)
      subst hr
      have ih' := ih (n + 1) (fun x hx => h x (by simp [hx]))
      simp only [consumeLoop, List.length_cons]
      rw [ih', List.range'_succ]
      have hn : n + 1 + rest.length = n + (rest.length + 1) := by omega
      rw [hn]

theorem consumeLoop_exn_none (rs : List (Option PyExn)) (n : Nat)
    (h : (consumeLoop rs n).2.2 = none) : ∀ r ∈ rs, r = none := by
  induction rs generalizing n with
  | nil => simp
  | cons r rest ih =>
      cases r with
      | none =>
          intro x hx
          rcases List.mem_cons.mp hx with hx | hx
          · exact hx
          · exact ih (n + 1) (by simpa [consumeLoop] using h) x hx
      | some e => simp [consumeLoop] at h

theorem consumeLoop_trace_le (rs : List (Option PyExn)) (n : Nat) :
    ∀ m ∈ (consumeLoop rs n).2.1, m ≤ n + rs.length := by
  induction rs generalizing n with
  | nil => simp [consumeLoop]
  | cons r rest ih =>
      cases r with
      | none =>
          intro m hm
          simp only [consumeLoop] at hm
          rcases List.mem_cons.mp hm with hm | hm
          · simp only [List.length_cons]
            omega
          · have := ih (n + 1) m hm
            simp only [List.length_cons]
            omega
      | some e => simp [consumeLoop]

theorem executorMap_conv_log (env : String → ConvEnv) (folder log : String)
    (items : List String) (fs : FS)
    (hexp : ∀ p ∈ items, convExpected env p)
    (hout : ∀ p ∈ items, convOutPath folder p ≠ log) :
    (executorMap (fun p fsx => convert_to_webp (env p) p folder log fsx) items fs).1.readFile log
      = appendLines (fs.readFile log) (convFailLines env items)
    ∧ ∀ r ∈ (executorMap (fun p fsx => convert_to_webp (env p) p folder log fsx) items fs).2,
        r = none := by
  induction items generalizing fs with
  | nil => exact ⟨rfl, by simp [executorMap]⟩
  | cons p rest ih =>
      obtain ⟨hr, c, hc⟩ := hexp p (by simp)
      have hw := convert_to_webp_expected (env p) p folder log fs hr c hc (hout p (by simp))
      have ihx := ih ((convert_to_webp (env p) p folder log fs).1)
        (fun q hq => hexp q (by simp [hq])) (fun q hq => hout q (by simp [hq]))
      constructor
      · simp only [executorMap]
        rw [ihx.1, hw.2]
        by_cases h0 : c = 0
        · have hf : convFails env p = false := by simp [convFails, hc, h0]
          simp [convFailLines, List.filter_cons, hf, h0]
        · have hf : convFails env p = true := by simp [convFails, hc, h0]
          have hcode : codeOf (env p).cwebp = c := by simp [codeOf, hc]
          simp only [if_neg h0]
          rw [appendLines_push]
          simp [convFailLines, List.filter_cons, hf, hcode]
      · intro r hrm
        simp only [executorMap] at hrm
        rcases List.mem_cons.mp hrm with hrm | hrm
        · rw [hrm]; exact hw.1
        · exact ihx.2 r hrm

theorem executorMap_dl_log (env : String → HttpResult) (folder log : String)
    (urls : List String) (fs : FS)
    (hexp : ∀ u ∈ urls, dlExpected env folder log fs.dirs u) :
    (executorMap (fun u fsx => download_image (env u) u folder log fsx) urls fs).1.readFile log
      = appendLines (fs.readFile log) (dlFailLines env urls)
    ∧ (∀ r ∈ (executorMap (fun u fsx => download_image (env u) u folder log fsx) urls fs).2,
        r = none)
    ∧ (executorMap (fun u fsx => download_image (env u) u folder log fsx) urls fs).1.dirs
        = fs.dirs := by
  induction urls generalizing fs with
  | nil => exact ⟨rfl, by simp [executorMap], rfl⟩
  | cons u rest ih =>
      have hu := hexp u (by simp)
      cases henv : env u with
      | exn m =>
          have hstep : download_image (env u) u folder log fs
              = (fs.appendChunk log (dlLogLine u m), none) := by
            rw [henv]
            rfl
          have hdirs : (fs.appendChunk log (dlLogLine u m)).dirs = fs.dirs :=
            dirs_appendChunk fs log (dlLogLine u m)
          have ihx := ih (fs.appendChunk log (dlLogLine u m))
            (fun q hq => by rw [hdirs]; exact hexp q (by simp [hq]))
          have hf : dlFails env u = true := by simp [dlFails, henv]
          have hm : msgOf (env u) = m := by simp [msgOf, henv]
          refine ⟨?_, ?_, ?_⟩
          · simp only [executorMap, hstep]
            rw [ihx.1, readFile_appendChunk_self]
            rw [appendLines_push]
            simp [dlFailLines, List.filter_cons, hf, hm]
          · intro r hrm
            simp only [executorMap, hstep] at hrm
            rcases List.mem_cons.mp hrm with hrm | hrm
            · exact hrm
            · exact ihx.2.1 r hrm
          · simp only [executorMap, hstep]
            rw [ihx.2.2, hdirs]
      | ok content =>
          have hu' : (dlFilePath folder u).data.getLast? ≠ some '/'
              ∧ dlFilePath folder u ≠ ""
              ∧ fs.dirs.contains (dlFilePath folder u) = false
              ∧ dlFilePath folder u ≠ log := by
            simpa [dlExpected, henv] using hu
          have hstep : download_image (env u) u folder log fs
              = (fs.writeAll (dlFilePath folder u) content, none) := by
            rw [henv]
            exact download_image_ok_eq content u folder log fs hu'.1 hu'.2.1 hu'.2.2.1
          have hdirs : (fs.writeAll (dlFilePath folder u) content).dirs = fs.dirs := rfl
          have ihx := ih (fs.writeAll (dlFilePath folder u) content)
            (fun q hq => by rw [hdirs]; exact hexp q (by simp [hq]))
          have hf : dlFails env u = false := by simp [dlFails, henv]
          refine ⟨?_, ?_, ?_⟩
          · simp only [executorMap, hstep]
            rw [ihx.1, readFile_writeAll_ne _ _ _ _ (Ne.symm hu'.2.2.2)]
            simp [dlFailLines, List.filter_cons, hf]
          · intro r hrm
            simp only [executorMap, hstep] at hrm
            rcases List.mem_cons.mp hrm with hrm | hrm
            · exact hrm
            · exact ihx.2.1 r hrm
          · simp only [executorMap, hstep]
            rw [ihx.2.2, hdirs]

theorem convert_images_ok_run (env : String → ConvEnv) (f : String)
    (listing : List DirEntry) (out : String) (mt : Int) (log : String) (fs : FS)
    (hmt : ¬ mt ≤ 0)
    (hall : ∀ r ∈ (executorMap (fun p fsx => convert_to_webp (env p) p out log fsx)
        (imagePaths f listing) fs).2, r = none) :
    convert_images_to_webp env f listing out mt log fs =
      ⟨(executorMap (fun p fsx => convert_to_webp (env p) p out log fsx)
          (imagePaths f listing) fs).1,
       (imagePaths f listing).length,
       List.range' 1 (imagePaths f listing).length,
       (List.range' 1 (imagePaths f listing).length).map
           (fun k => progressConv k (imagePaths f listing).length)
         ++ [summaryConv (imagePaths f listing).length (imagePaths f listing).length log],
       none⟩ := by
  have hlen := executorMap_length (fun p fsx => convert_to_webp (env p) p out log fsx)
    (imagePaths f listing) fs
  have hcons := consumeLoop_all_none _ 0 hall
  rw [hlen] at hcons
  simp only [convert_images_to_webp, if_neg hmt, hcons, Nat.zero_add]

theorem download_images_ok_run (env : String → HttpResult) (urls : List String)
    (folder : String) (mt : Int) (log : String) (fs : FS)
    (hmt : ¬ mt ≤ 0)
    (hall : ∀ r ∈ (executorMap (fun u fsx => download_image (env u) u folder log fsx)
        urls (dlFs0 fs folder)).2, r = none) :
    download_images env urls folder mt log fs =
      ⟨(executorMap (fun u fsx => download_image (env u) u folder log fsx)
          urls (dlFs0 fs folder)).1,
       urls.length,
       List.range' 1 urls.length,
       (List.range' 1 urls.length).map (fun k => progressDl k urls.length)
         ++ [summaryDl urls.length urls.length log],
       none⟩ := by
  have hlen := executorMap_length (fun u fsx => download_image (env u) u folder log fsx)
    urls (dlFs0 fs folder)
  have hcons := consumeLoop_all_none _ 0 hall
  rw [hlen] at hcons
  simp only [download_images, if_neg hmt, hcons, Nat.zero_add]

/-- C4: when the concurrency parameter is zero or negative, both batch
functions fail fast with the executor's
`ValueError("max_workers must be greater than 0")` before any worker is
invoked: the counter stays 0, nothing is printed, no item is processed
and no per-item side effect occurs (the converter returns its filesystem
unchanged; the downloader has only done its batch-level folder creation
and leaves every file unchanged). -/
theorem claim_C4_invalid_concurrency (envC : String → ConvEnv)
    (envD : String → HttpResult) (f : String) (listing : List DirEntry)
    (out logC : String) (urls : List String) (folder logD : String)
    (mt : Int) (fsC fsD : FS) (hmt : mt ≤ 0) :
    convert_images_to_webp envC f listing out mt logC fsC
        = ⟨fsC, 0, [], [], some (.valueError "max_workers must be greater than 0")⟩
    ∧ download_images envD urls folder mt logD fsD
        = ⟨dlFs0 fsD folder, 0, [], [],
            some (.valueError "max_workers must be greater than 0")⟩
    ∧ (dlFs0 fsD folder).files = fsD.files := by
  refine ⟨?_, ?_, ?_⟩
  · simp [convert_images_to_webp, if_pos hmt]
  · simp [download_images, if_pos hmt]
  · unfold dlFs0
    split <;> rfl

/-- C4 witness: concurrency -3 on concrete batches. -/
theorem claim_C4_invalid_concurrency_witness :
    convert_images_to_webp envCok "imgs" listing5 "webp_images" (-3)
        "webp_error_log.txt" fsEmpty
        = ⟨fsEmpty, 0, [], [], some (.valueError "max_workers must be greater than 0")⟩
    ∧ download_images envDok ["http://h/a.png"] "images" (-3) "error_log.txt" fsEmpty
        = ⟨dlFs0 fsEmpty "images", 0, [], [],
            some (.valueError "max_workers must be greater than 0")⟩
    ∧ (dlFs0 fsEmpty "images").files = fsEmpty.files :=
  claim_C4_invalid_concurrency envCok envDok "imgs" listing5 "webp_images"
    "webp_error_log.txt" ["http://h/a.png"] "images" "error_log.txt" (-3)
    fsEmpty fsEmpty (by decide)

/-- C5: the converter's final summary line substitutes the error-log
path, but the downloader's final summary is missing the `f` prefix on
its second part, so it prints the literal text
`Errors logged to {error_log}.`: the `error_log` argument value
(`error_log.txt`) does not occur in the printed summary, and the
summary string does not depend on that argument at all.  The claim
holds for the converter and fails for the downloader. -/
theorem claim_C5_summary_interpolation :
    (convert_images_to_webp envCok "imgs" [⟨"a.png", true⟩] "webp_images" 8
        "webp_error_log.txt" fsEmpty).prints.getLast?
      = some "Converted 1 of 1 images. Errors logged to webp_error_log.txt."
    ∧ (download_images envDok ["http://h/a.png"] "images" 8
        "error_log.txt" fsEmpty).prints.getLast?
      = some "Completed 1 of 1 images. Errors logged to \x7berror_log\x7d."
    ∧ ¬ List.IsInfix "error_log.txt".data
        "Completed 1 of 1 images. Errors logged to \x7berror_log\x7d.".data
    ∧ (∀ a b : String, ∀ n t : Nat, summaryDl n t a = summaryDl n t b) := by
  refine ⟨by decide, by decide, by decide, fun a b n t => rfl⟩

/-- C7 counterexample: the check-then-create pair in `convert_to_webp`
races: when the output folder is absent at the `os.path.exists` check
but comes to exist before `os.makedirs` (a concurrent sibling creating
it), `os.makedirs` raises `FileExistsError`, which is not a
`CalledProcessError` and escapes `convert_to_webp` — refuting "never
raises out of the directory-creation step". -/
theorem claim_C7_counterexample :
    (convert_to_webp ⟨true, .exit 0⟩ "imgs/a.png" "webp_images"
        "webp_error_log.txt" fsEmpty).2
      = some (.fileExists "webp_images") := by decide

theorem convert_to_webp_dirs (env : ConvEnv) (p folder log : String) (fs : FS)
    (hex : fs.existsPath folder = false) (hr : env.raceCreate = false) :
    (convert_to_webp env p folder log fs).1.dirs = folder :: fs.dirs := by
  have hex1 : ¬ (fs.existsPath folder = true) := by simp [hex]
  unfold convert_to_webp
  rw [hr]
  simp only [Bool.false_eq_true, if_false, if_neg hex1, ite_false]
  cases hc : env.cwebp with
  | exit c =>
      by_cases h0 : c = 0
      · simp [h0, FS.writeAll, FS.mkdir]
      · simp [h0, dirs_appendChunk, FS.mkdir]
  | fault m => simp [FS.mkdir]

/-- C7 (amended): the conversion worker creates the output folder when
absent, and the creation is idempotent sequentially — when the folder
already exists, or when it is created by this call without interference,
no `FileExistsError` can leave the directory-creation step; but when the
folder comes to exist between the existence check and the creation,
`os.makedirs` raises `FileExistsError` out of `convert_to_webp`. -/
theorem claim_C7_mkdir_race (env : ConvEnv) (p folder log : String) (fs : FS) :
    (fs.existsPath folder = true →
        ∀ s, (convert_to_webp env p folder log fs).2 ≠ some (.fileExists s))
    ∧ (fs.existsPath folder = false → env.raceCreate = false →
        (convert_to_webp env p folder log fs).1.existsPath folder = true
        ∧ ∀ s, (convert_to_webp env p folder log fs).2 ≠ some (.fileExists s))
    ∧ (fs.existsPath folder = false → env.raceCreate = true →
        (convert_to_webp env p folder log fs).2 = some (.fileExists folder)) := by
  refine ⟨?_, ?_, ?_⟩
  · intro hex s
    cases hc : env.cwebp with
    | exit c =>
        by_cases h0 : c = 0 <;> simp [convert_to_webp, hex, hc, h0]
    | fault m => simp [convert_to_webp, hex, hc]
  · intro hex hr
    constructor
    · have hd := convert_to_webp_dirs env p folder log fs hex hr
      simp [FS.existsPath, hd]
    · intro s
      cases hc : env.cwebp with
      | exit c =>
          by_cases h0 : c = 0 <;> simp [convert_to_webp, hex, hr, hc, h0]
      | fault m => simp [convert_to_webp, hex, hr, hc]
  · intro hex hr
    have hex' : ¬ (folder ∈ fs.dirs ∨ (assocGet fs.files folder).isSome = true) := by
      intro hcontra
      have hx : fs.existsPath folder = true := by
        rcases hcontra with hmem | hsome
        · simp [FS.existsPath, hmem]
        · simp [FS.existsPath, hsome]
      rw [hx] at hex
      simp at hex
    simp [convert_to_webp, hex', hr, FS.existsPath, FS.mkdir]

/-- C7 witness: concrete instances of the three amended cases. -/
theorem claim_C7_mkdir_race_witness :
    (∀ s, (convert_to_webp ⟨false, .exit 0⟩ "imgs/a.png" "webp_images" "log.txt"
        (fsEmpty.mkdir "webp_images")).2 ≠ some (.fileExists s))
    ∧ (convert_to_webp ⟨false, .exit 0⟩ "imgs/a.png" "webp_images" "log.txt"
        fsEmpty).1.existsPath "webp_images" = true
    ∧ (convert_to_webp ⟨true, .exit 0⟩ "imgs/a.png" "webp_images" "log.txt"
        fsEmpty).2 = some (.fileExists "webp_images") :=
  ⟨(claim_C7_mkdir_race ⟨false, .exit 0⟩ "imgs/a.png" "webp_images" "log.txt"
      (fsEmpty.mkdir "webp_images")).1 (by decide),
   ((claim_C7_mkdir_race ⟨false, .exit 0⟩ "imgs/a.png" "webp_images" "log.txt"
      fsEmpty).2.1 (by decide) (by decide)).1,
   (claim_C7_mkdir_race ⟨true, .exit 0⟩ "imgs/a.png" "webp_images" "log.txt"
      fsEmpty).2.2 (by decide) (by decide)⟩

/-- C8: the converter's input scan selects exactly the direct entries of
the image folder that are files (`os.path.isfile`) and whose names end,
case-insensitively, in `.png`, `.jpg`, `.jpeg` or `.gif`: a path is
submitted for conversion iff it is the folder-joined name of such an
entry, and no other entry contributes. -/
theorem claim_C8_scan_selection (image_folder : String) (listing : List DirEntry)
    (p : String) :
    p ∈ imagePaths image_folder listing
      ↔ ∃ e, e ∈ listing ∧ e.isfile = true
          ∧ (strEndsWith (pyLower e.name) ".png" = true
             ∨ strEndsWith (pyLower e.name) ".jpg" = true
             ∨ strEndsWith (pyLower e.name) ".jpeg" = true
             ∨ strEndsWith (pyLower e.name) ".gif" = true)
          ∧ p = os_path_join image_folder e.name := by
  simp only [imagePaths, List.mem_map, List.mem_filter, hasImageExt,
    Bool.and_eq_true, Bool.or_eq_true]
  constructor
  · rintro ⟨e, ⟨he, hf, hext⟩, hp⟩
    exact ⟨e, he, hf, by tauto, hp.symm⟩
  · rintro ⟨e, he, hf, hext, hp⟩
    exact ⟨e, ⟨he, hf, by tauto⟩, hp.symm⟩

/-- C10: for a URL whose parsed path has an empty final segment (for
example a URL ending in a slash) the derived filename is empty, so the
destination path is the folder itself (with a trailing separator); the
`open(filepath, 'wb')` of that path raises an `OSError`
(`IsADirectoryError`), which is not a `RequestException`, so it
propagates out of `download_image` uncaught, and the filesystem — in
particular the error log — is untouched. -/
theorem claim_C10_empty_filename (url folder log content : String) (fs : FS)
    (hb : os_path_basename (urlparsePath url) = "")
    (hf : folder ≠ "") :
    download_image (.ok content) url folder log fs
      = (fs, some (.isADirectory (dlFilePath folder url))) := by
  have hjoin : dlFilePath folder url = os_path_join folder "" := by
    rw [dlFilePath, hb]
  have hslash : (os_path_join folder "").data.getLast? = some '/' := by
    unfold os_path_join
    have h1 : ¬ (("" : String).data.head? = some '/') := by decide
    rw [if_neg h1, if_neg hf]
    by_cases h2 : folder.data.getLast? = some '/'
    · rw [if_pos h2]
      simpa [String.data_append] using h2
    · rw [if_neg h2]
      simp [String.data_append, List.getLast?_concat]
  simp only [download_image]
  rw [if_pos (Or.inl (by rw [hjoin]; exact hslash))]

/-- C10 witness: `http://h/imgs/` parses to an empty filename and the
worker raises with the filesystem untouched. -/
theorem claim_C10_empty_filename_witness :
    os_path_basename (urlparsePath "http://h/imgs/") = ""
    ∧ download_image (.ok "DATA") "http://h/imgs/" "images" "error_log.txt" fsEmpty
        = (fsEmpty, some (.isADirectory (dlFilePath "images" "http://h/imgs/"))) :=
  ⟨by decide,
   claim_C10_empty_filename "http://h/imgs/" "images" "error_log.txt" "DATA"
     fsEmpty (by decide) (by decide)⟩

theorem convert_images_parts (env : String → ConvEnv) (f : String)
    (listing : List DirEntry) (out : String) (mt : Int) (log : String) (fs : FS)
    (hmt : ¬ mt ≤ 0) :
    (convert_images_to_webp env f listing out mt log fs).counter
        = (consumeLoop (executorMap (fun p fsx => convert_to_webp (env p) p out log fsx)
            (imagePaths f listing) fs).2 0).1
    ∧ (convert_images_to_webp env f listing out mt log fs).trace
        = (consumeLoop (executorMap (fun p fsx => convert_to_webp (env p) p out log fsx)
            (imagePaths f listing) fs).2 0).2.1
    ∧ (convert_images_to_webp env f listing out mt log fs).exn
        = (consumeLoop (executorMap (fun p fsx => convert_to_webp (env p) p out log fsx)
            (imagePaths f listing) fs).2 0).2.2
    ∧ (convert_images_to_webp env f listing out mt log fs).fs
        = (executorMap (fun p fsx => convert_to_webp (env p) p out log fsx)
            (imagePaths f listing) fs).1 := by
  simp only [convert_images_to_webp, if_neg hmt]
  split <;> simp_all

theorem download_images_parts (env : String → HttpResult) (urls : List String)
    (folder : String) (mt : Int) (log : String) (fs : FS) (hmt : ¬ mt ≤ 0) :
    (download_images env urls folder mt log fs).counter
        = (consumeLoop (executorMap (fun u fsx => download_image (env u) u folder log fsx)
            urls (dlFs0 fs folder)).2 0).1
    ∧ (download_images env urls folder mt log fs).trace
        = (consumeLoop (executorMap (fun u fsx => download_image (env u) u folder log fsx)
            urls (dlFs0 fs folder)).2 0).2.1
    ∧ (download_images env urls folder mt log fs).exn
        = (consumeLoop (executorMap (fun u fsx => download_image (env u) u folder log fsx)
            urls (dlFs0 fs folder)).2 0).2.2
    ∧ (download_images env urls folder mt log fs).fs
        = (executorMap (fun u fsx => download_image (env u) u folder log fsx)
            urls (dlFs0 fs folder)).1 := by
  simp only [download_images, if_neg hmt]
  split <;> simp_all

/-- C1: for every input sequence (of length K) and concurrency N ≥ 1,
the completed counter printed during the run never exceeds K; and once
the batch function returns normally (no exception propagates out), the
counter equals K — every item counted exactly once, the counter values
printed being exactly 1, 2, ..., K — and the final printed summary line
reports completed == total, i.e. K of K.  Both for
`convert_images_to_webp` and for `download_images`. -/
theorem claim_C1_completed_counts (envC : String → ConvEnv)
    (envD : String → HttpResult) (f : String) (listing : List DirEntry)
    (out logC : String) (urls : List String) (folder logD : String)
    (mt : Int) (fsC fsD : FS) (hmt : 1 ≤ mt) :
    ((∀ m ∈ (convert_images_to_webp envC f listing out mt logC fsC).trace,
        m ≤ (imagePaths f listing).length)
      ∧ ((convert_images_to_webp envC f listing out mt logC fsC).exn = none →
          (convert_images_to_webp envC f listing out mt logC fsC).counter
              = (imagePaths f listing).length
          ∧ (convert_images_to_webp envC f listing out mt logC fsC).trace
              = List.range' 1 (imagePaths f listing).length
          ∧ (convert_images_to_webp envC f listing out mt logC fsC).prints.getLast?
              = some (summaryConv (imagePaths f listing).length
                  (imagePaths f listing).length logC)))
    ∧ ((∀ m ∈ (download_images envD urls folder mt logD fsD).trace,
        m ≤ urls.length)
      ∧ ((download_images envD urls folder mt logD fsD).exn = none →
          (download_images envD urls folder mt logD fsD).counter = urls.length
          ∧ (download_images envD urls folder mt logD fsD).trace
              = List.range' 1 urls.length
          ∧ (download_images envD urls folder mt logD fsD).prints.getLast?
              = some (summaryDl urls.length urls.length logD))) := by
  have hmt' : ¬ mt ≤ 0 := by omega
  constructor
  · have hparts := convert_images_parts envC f listing out mt logC fsC hmt'
    constructor
    · intro m hm
      rw [hparts.2.1] at hm
      have := consumeLoop_trace_le
        ((executorMap (fun p fsx => convert_to_webp (envC p) p out logC fsx)
          (imagePaths f listing) fsC).2) 0 m hm
      rwa [Nat.zero_add, executorMap_length] at this
    · intro hnone
      rw [hparts.2.2.1] at hnone
      have hall := consumeLoop_exn_none _ 0 hnone
      have hrun := convert_images_ok_run envC f listing out mt logC fsC hmt' hall
      rw [hrun]
      exact ⟨rfl, rfl, List.getLast?_concat _⟩
  · have hparts := download_images_parts envD urls folder mt logD fsD hmt'
    constructor
    · intro m hm
      rw [hparts.2.1] at hm
      have := consumeLoop_trace_le
        ((executorMap (fun u fsx => download_image (envD u) u folder logD fsx)
          urls (dlFs0 fsD folder)).2) 0 m hm
      rwa [Nat.zero_add, executorMap_length] at this
    · intro hnone
      rw [hparts.2.2.1] at hnone
      have hall := consumeLoop_exn_none _ 0 hnone
      have hrun := download_images_ok_run envD urls folder mt logD fsD hmt' hall
      rw [hrun]
      exact ⟨rfl, rfl, List.getLast?_concat _⟩

/-- C1 witness: five images and one URL, all succeeding, with
concurrency 8. -/
theorem claim_C1_completed_counts_witness :
    (convert_images_to_webp envCok "imgs" listing5 "webp_images" 8
        "webp_error_log.txt" fsEmpty).counter = (imagePaths "imgs" listing5).length
    ∧ (download_images envDok ["http://h/a.png"] "images" 8 "error_log.txt"
        fsEmpty).counter = (["http://h/a.png"] : List String).length :=
  ⟨((claim_C1_completed_counts envCok envDok "imgs" listing5 "webp_images"
      "webp_error_log.txt" ["http://h/a.png"] "images" "error_log.txt" 8
      fsEmpty fsEmpty (by decide)).1.2 (by decide)).1,
   ((claim_C1_completed_counts envCok envDok "imgs" listing5 "webp_images"
      "webp_error_log.txt" ["http://h/a.png"] "images" "error_log.txt" 8
      fsEmpty fsEmpty (by decide)).2.2 (by decide)).1⟩

/-- C3 counterexample: a filesystem write error for an item — here the
URL `http://h/` yields an empty filename, so the open of the destination
raises `IsADirectoryError` — is a non-success outcome that produces NO
failure-log entry: the error log stays absent and the exception
propagates instead of being recorded. -/
theorem claim_C3_counterexample :
    (download_images envDok ["http://h/"] "images" 8 "error_log.txt" fsEmpty).exn
      ≠ none
    ∧ (download_images envDok ["http://h/"] "images" 8 "error_log.txt"
        fsEmpty).fs.readFile "error_log.txt" = none := by
  decide

/-- C3 (amended): the caught non-success outcomes — conversion-tool
non-zero exits in the converter, HTTP/network (`RequestException`)
failures in the downloader — each produce exactly one failure-log entry
and none of them is dropped: the lines appended to the log are, up to
ordering (workers append in completion order, which is not guaranteed
to match input order), exactly one line per failing item; but
filesystem write errors (and other unexpected faults) are not caught:
they produce no entry and propagate instead (see the counterexample). -/
theorem claim_C3_one_line_per_failure (envC : String → ConvEnv)
    (envD : String → HttpResult) (f : String) (listing : List DirEntry)
    (out logC : String) (urls : List String) (folder logD : String)
    (mt : Int) (fsC fsD : FS) (hmt : 1 ≤ mt)
    (hexpC : ∀ p ∈ imagePaths f listing, convExpected envC p)
    (houtC : ∀ p ∈ imagePaths f listing, convOutPath out p ≠ logC)
    (hexpD : ∀ u ∈ urls, dlExpected envD folder logD (dlFs0 fsD folder).dirs u) :
    ((∃ lines : List String,
        (convert_images_to_webp envC f listing out mt logC fsC).fs.readFile logC
          = appendLines (fsC.readFile logC) lines
        ∧ lines.Perm (convFailLines envC (imagePaths f listing)))
      ∧ (convFailLines envC (imagePaths f listing)).length
          = ((imagePaths f listing).filter (convFails envC)).length)
    ∧ ((∃ lines : List String,
        (download_images envD urls folder mt logD fsD).fs.readFile logD
          = appendLines ((dlFs0 fsD folder).readFile logD) lines
        ∧ lines.Perm (dlFailLines envD urls))
      ∧ (dlFailLines envD urls).length = (urls.filter (dlFails envD)).length) := by
  have hmt' : ¬ mt ≤ 0 := by omega
  refine ⟨⟨⟨convFailLines envC (imagePaths f listing), ?_, List.Perm.refl _⟩,
            by simp [convFailLines]⟩,
          ⟨⟨dlFailLines envD urls, ?_, List.Perm.refl _⟩,
            by simp [dlFailLines]⟩⟩
  · rw [(convert_images_parts envC f listing out mt logC fsC hmt').2.2.2]
    exact (executorMap_conv_log envC out logC (imagePaths f listing) fsC hexpC houtC).1
  · rw [(download_images_parts envD urls folder mt logD fsD hmt').2.2.2]
    exact (executorMap_dl_log envD folder logD urls (dlFs0 fsD folder) hexpD).1

/-- C3 witness: all-failing batches — the lines appended to each log are
(up to ordering) exactly one per item. -/
theorem claim_C3_one_line_per_failure_witness :
    (∃ lines : List String,
        (convert_images_to_webp envCfail "imgs" listing5 "webp_images" 8
            "webp_error_log.txt" fsEmpty).fs.readFile "webp_error_log.txt"
          = appendLines (fsEmpty.readFile "webp_error_log.txt") lines
        ∧ lines.Perm (convFailLines envCfail (imagePaths "imgs" listing5)))
    ∧ (∃ lines : List String,
        (download_images envDfail ["http://h/a.png", "http://h/b.png"] "images" 8
            "error_log.txt" fsEmpty).fs.readFile "error_log.txt"
          = appendLines ((dlFs0 fsEmpty "images").readFile "error_log.txt") lines
        ∧ lines.Perm (dlFailLines envDfail ["http://h/a.png", "http://h/b.png"])) :=
  ⟨((claim_C3_one_line_per_failure envCfail envDfail "imgs" listing5 "webp_images"
      "webp_error_log.txt" ["http://h/a.png", "http://h/b.png"] "images"
      "error_log.txt" 8 fsEmpty fsEmpty (by decide)
      (fun p _ => ⟨rfl, 1, rfl⟩) (by decide) (fun u _ => trivial)).1).1,
   ((claim_C3_one_line_per_failure envCfail envDfail "imgs" listing5 "webp_images"
      "webp_error_log.txt" ["http://h/a.png", "http://h/b.png"] "images"
      "error_log.txt" 8 fsEmpty fsEmpty (by decide)
      (fun p _ => ⟨rfl, 1, rfl⟩) (by decide) (fun u _ => trivial)).2).1⟩

/-- C6: starting with the error log absent, with concurrency ≥ 1 and
every worker outcome expected (no uncaught faults), after the batch the
error-log file holds exactly one line per failed item, appended in
append mode in completion order, of the form
`Error converting <item>: <diagnostic>\n` (converter) resp.
`Error downloading <item>: <diagnostic>\n` (downloader); the file is
created by the first failing item's append and is left absent when no
item failed. -/
theorem claim_C6_error_log_lines (envC : String → ConvEnv)
    (envD : String → HttpResult) (f : String) (listing : List DirEntry)
    (out logC : String) (urls : List String) (folder logD : String)
    (mt : Int) (fsC fsD : FS) (hmt : 1 ≤ mt)
    (hexpC : ∀ p ∈ imagePaths f listing, convExpected envC p)
    (houtC : ∀ p ∈ imagePaths f listing, convOutPath out p ≠ logC)
    (hexpD : ∀ u ∈ urls, dlExpected envD folder logD (dlFs0 fsD folder).dirs u)
    (habsC : fsC.readFile logC = none)
    (habsD : (dlFs0 fsD folder).readFile logD = none) :
    ((convert_images_to_webp envC f listing out mt logC fsC).fs.readFile logC
        = (if convFailLines envC (imagePaths f listing) = [] then none
           else some (convFailLines envC (imagePaths f listing)))
      ∧ convFailLines envC (imagePaths f listing)
          = ((imagePaths f listing).filter (convFails envC)).map
              (fun p => "Error converting " ++ p ++ ": "
                ++ cpeStr (codeOf (envC p).cwebp) ++ "\n"))
    ∧ ((download_images envD urls folder mt logD fsD).fs.readFile logD
        = (if dlFailLines envD urls = [] then none
           else some (dlFailLines envD urls))
      ∧ dlFailLines envD urls
          = (urls.filter (dlFails envD)).map
              (fun u => "Error downloading " ++ u ++ ": " ++ msgOf (envD u) ++ "\n")) := by
  have hmt' : ¬ mt ≤ 0 := by omega
  constructor
  · constructor
    · rw [(convert_images_parts envC f listing out mt logC fsC hmt').2.2.2]
      rw [(executorMap_conv_log envC out logC (imagePaths f listing) fsC hexpC houtC).1]
      rw [habsC]
      cases h : convFailLines envC (imagePaths f listing) <;> simp [appendLines, h]
    · simp [convFailLines, convLogLine]
  · constructor
    · rw [(download_images_parts envD urls folder mt logD fsD hmt').2.2.2]
      rw [(executorMap_dl_log envD folder logD urls (dlFs0 fsD folder) hexpD).1]
      rw [habsD]
      cases h : dlFailLines envD urls <;> simp [appendLines, h]
    · simp [dlFailLines, dlLogLine]

/-- C6 witness: a no-failure converter batch leaves the log absent; an
all-failing downloader batch creates it with one line per URL. -/
theorem claim_C6_error_log_lines_witness :
    (convert_images_to_webp envCok "imgs" listing5 "webp_images" 8
        "webp_error_log.txt" fsEmpty).fs.readFile "webp_error_log.txt"
      = (if convFailLines envCok (imagePaths "imgs" listing5) = [] then none
         else some (convFailLines envCok (imagePaths "imgs" listing5)))
    ∧ (download_images envDfail ["http://h/a.png"] "images" 8 "error_log.txt"
        fsEmpty).fs.readFile "error_log.txt"
      = (if dlFailLines envDfail ["http://h/a.png"] = [] then none
         else some (dlFailLines envDfail ["http://h/a.png"])) :=
  ⟨((claim_C6_error_log_lines envCok envDfail "imgs" listing5 "webp_images"
      "webp_error_log.txt" ["http://h/a.png"] "images" "error_log.txt" 8
      fsEmpty fsEmpty (by decide) (fun p _ => ⟨rfl, 0, rfl⟩) (by decide)
      (fun u _ => trivial) (by decide) (by decide)).1).1,
   ((claim_C6_error_log_lines envCok envDfail "imgs" listing5 "webp_images"
      "webp_error_log.txt" ["http://h/a.png"] "images" "error_log.txt" 8
      fsEmpty fsEmpty (by decide) (fun p _ => ⟨rfl, 0, rfl⟩) (by decide)
      (fun u _ => trivial) (by decide) (by decide)).2).1⟩

theorem dropWhile_head_false (p : Char → Bool) (l : List Char) :
    ∀ c, (l.dropWhile p).head? = some c → p c = false := by
  induction l with
  | nil => intro c h; simp [List.dropWhile] at h
  | cons a rest ih =>
      intro c h
      rw [List.dropWhile_cons] at h
      by_cases hp : p a = true
      · rw [if_pos hp] at h
        exact ih c h
      · rw [if_neg hp] at h
        simp at h
        rw [← h]
        simpa using hp

theorem dropWhile_getLast?_of_ne_nil (p : Char → Bool) (l : List Char)
    (h : l.dropWhile p ≠ []) : (l.dropWhile p).getLast? = l.getLast? := by
  induction l with
  | nil => simp [List.dropWhile] at h
  | cons a rest ih =>
      rw [List.dropWhile_cons] at h ⊢
      by_cases hp : p a = true
      · rw [if_pos hp] at h ⊢
        have hrest : rest ≠ [] := by
          intro hr
          rw [hr] at h
          simp [List.dropWhile] at h
        rw [ih h]
        cases rest with
        | nil => exact absurd rfl hrest
        | cons b t => simp [List.getLast?_cons_cons]
      · rw [if_neg hp]

theorem dropWhile_eq_nil_of_all (p : Char → Bool) (l : List Char)
    (h : ∀ c ∈ l, p c = true) : l.dropWhile p = [] :=
  List.dropWhile_eq_nil_iff.mpr h

theorem pyStrip_no_edge_space (s : String) :
    (∀ c, (pyStrip s).data.head? = some c → isPySpace c = false)
    ∧ (∀ c, (pyStrip s).data.getLast? = some c → isPySpace c = false) := by
  constructor
  · intro c h
    have h' : ((((s.data.dropWhile isPySpace).reverse.dropWhile isPySpace)).reverse).head?
        = some c := h
    rw [List.head?_reverse] at h'
    have hne : (s.data.dropWhile isPySpace).reverse.dropWhile isPySpace ≠ [] := by
      intro hnil
      rw [hnil] at h'
      simp at h'
    rw [dropWhile_getLast?_of_ne_nil _ _ hne, List.getLast?_reverse] at h'
    exact dropWhile_head_false isPySpace s.data c h'
  · intro c h
    have h' : ((((s.data.dropWhile isPySpace).reverse.dropWhile isPySpace)).reverse).getLast?
        = some c := h
    rw [List.getLast?_reverse] at h'
    exact dropWhile_head_false isPySpace _ c h'

theorem pyStrip_blank (l : String) (h : l.data.all isPySpace = true) :
    pyStrip l = "" := by
  unfold pyStrip
  have h1 : l.data.dropWhile isPySpace = [] :=
    dropWhile_eq_nil_of_all isPySpace l.data (by simpa [List.all_eq_true] using h)
  rw [h1]
  rfl

/-- C9 counterexample: the downloader's URL reading strips leading
whitespace as well.  For the one-line file content ` a` the code yields
`a`, whereas one element per line with only its trailing whitespace
stripped (the claim's description) yields ` a`. -/
theorem claim_C9_counterexample :
    readUrls " a" ≠ readUrlsSpec " a" := by decide

/-- C9 (amended): the URL list has exactly one element per line of the
file — including an empty-string element for every blank line — but each
line is stripped of its leading AND trailing whitespace (`line.strip()`):
elementwise the list is `pyStrip` of each line, no element begins or ends
with whitespace, and an all-whitespace line yields the empty string. -/
theorem claim_C9_strip_both_sides (content : String) :
    (readUrls content).length = (pyLines content).length
    ∧ (∀ i : Nat, (readUrls content)[i]? = Option.map pyStrip ((pyLines content)[i]?))
    ∧ (∀ u ∈ readUrls content,
        (∀ c, u.data.head? = some c → isPySpace c = false)
        ∧ (∀ c, u.data.getLast? = some c → isPySpace c = false))
    ∧ (∀ l ∈ pyLines content, l.data.all isPySpace = true → pyStrip l = "") := by
  refine ⟨by simp [readUrls], ?_, ?_, ?_⟩
  · intro i
    simp [readUrls, List.getElem?_map]
  · intro u hu
    rcases List.mem_map.mp hu with ⟨l, _, hl⟩
    rw [← hl]
    exact pyStrip_no_edge_space l
  · intro l _ hall
    exact pyStrip_blank l hall

/-- C9 witness: the amended claim at the concrete content
`" a\nb \n\nc"` (leading space, trailing space, a blank line). -/
theorem claim_C9_strip_both_sides_witness :
    (readUrls " a\nb \n\nc").length = (pyLines " a\nb \n\nc").length
    ∧ pyStrip "  " = "" :=
  ⟨(claim_C9_strip_both_sides " a\nb \n\nc").1,
   (claim_C9_strip_both_sides "  \nx").2.2.2 "  " (by decide) (by decide)⟩
